import Mathlib

/-!
Verification development for the vercelcodingagent repository.

Part I embeds the `SignIn` React component
(`src/components/auth/sign-in.tsx`) as a small state machine: the
component's `useState` hooks become a record of booleans, the enabled
auth providers become parameters, and a click handler can fire only when
its button is rendered and not disabled.

Part II models the sandbox task orchestrator described in the design
document (task state machine, lifecycle/cleanup manager, VCS tracker,
agent runner, provisioner, message log).  The orchestrator's source is
not part of this excerpt, so each definition is modelled from the spec
and says so in its doc comment.
-/

namespace VercelAgent

/-! ## Part I: the SignIn component (src/components/auth/sign-in.tsx) -/

/-- Result of `getEnabledAuthProviders()`: which OAuth providers are enabled. -/
structure AuthProviders where
  github : Bool
  vercel : Bool
deriving DecidableEq, Repr

/-- The component's `useState` hooks: `showDialog`, `loadingVercel`, `loadingGitHub`. -/
structure SignInState where
  showDialog : Bool
  loadingVercel : Bool
  loadingGitHub : Bool
deriving DecidableEq, Repr

/-- Initial component state: all three `useState(false)` hooks. -/
def initialSignInState : SignInState :=
  { showDialog := false, loadingVercel := false, loadingGitHub := false }

/-- The Vercel button's `disabled` attribute: `loadingVercel || loadingGitHub`. -/
def vercelButtonDisabled (s : SignInState) : Bool :=
  s.loadingVercel || s.loadingGitHub

/-- The GitHub button's `disabled` attribute: `loadingVercel || loadingGitHub`. -/
def githubButtonDisabled (s : SignInState) : Bool :=
  s.loadingVercel || s.loadingGitHub

/-- The dialog description, exactly as the nested conditional in the JSX computes it. -/
def dialogDescription (p : AuthProviders) : String :=
  if p.github && p.vercel then
    "Choose how you want to sign in to continue."
  else if p.vercel then
    "Sign in with Vercel to continue."
  else
    "Sign in with GitHub to continue."

/-- A sign-in button that may be rendered inside the dialog. -/
inductive SignInButton where
  | vercel
  | github
deriving DecidableEq, Repr

/-- Which sign-in buttons the JSX renders: the Vercel button under
`{hasVercel && ...}`, then the GitHub button under `{hasGitHub && ...}`. -/
def renderedSignInButtons (p : AuthProviders) : List SignInButton :=
  (if p.vercel then [SignInButton.vercel] else []) ++
    (if p.github then [SignInButton.github] else [])

/-- User interactions the component reacts to. -/
inductive SignInEvent where
  | openDialog
  | setDialog (b : Bool)
  | clickVercel
  | clickGitHub
deriving DecidableEq, Repr

/-- One step of the component: `openDialog` is the outer Sign in button,
`setDialog` is the dialog's `onOpenChange`, and a click on a provider
button can fire only when that button is rendered (its provider is
enabled) and not disabled; firing runs the handler, which sets the
corresponding loading flag (a handler never resets a loading flag). -/
def signInStep (p : AuthProviders) (s : SignInState) :
    SignInEvent → Option SignInState
  | SignInEvent.openDialog => some { s with showDialog := true }
  | SignInEvent.setDialog b => some { s with showDialog := b }
  | SignInEvent.clickVercel =>
      if p.vercel && !vercelButtonDisabled s then
        some { s with loadingVercel := true }
      else
        none
  | SignInEvent.clickGitHub =>
      if p.github && !githubButtonDisabled s then
        some { s with loadingGitHub := true }
      else
        none

/-- Component states reachable from the initial render by user interactions. -/
inductive SignInReachable (p : AuthProviders) : SignInState → Prop
  | init : SignInReachable p initialSignInState
  | step (s s' : SignInState) (e : SignInEvent) :
      SignInReachable p s → signInStep p s e = some s' → SignInReachable p s'

/-- In every reachable state the two loading flags are never both set. -/
lemma signInReachable_not_both {p : AuthProviders} {s : SignInState}
    (h : SignInReachable p s) :
    ¬(s.loadingVercel = true ∧ s.loadingGitHub = true) := by
  induction h with
  | init => simp [initialSignInState]
  | step s s' e _ hstep ih =>
      cases e with
      | openDialog =>
          simp only [signInStep, Option.some.injEq] at hstep
          subst hstep
          simpa using ih
      | setDialog b =>
          simp only [signInStep, Option.some.injEq] at hstep
          subst hstep
          simpa using ih
      | clickVercel =>
          simp only [signInStep] at hstep
          split at hstep
          · next hcond =>
              simp only [Option.some.injEq] at hstep
              subst hstep
              simp only [vercelButtonDisabled, Bool.and_eq_true,
                Bool.not_eq_true', Bool.or_eq_false_iff] at hcond
              simp [hcond.2.2]
          · exact absurd hstep (by simp)
      | clickGitHub =>
          simp only [signInStep] at hstep
          split at hstep
          · next hcond =>
              simp only [Option.some.injEq] at hstep
              subst hstep
              simp only [githubButtonDisabled, Bool.and_eq_true,
                Bool.not_eq_true', Bool.or_eq_false_iff] at hcond
              simp [hcond.2.1]
          · exact absurd hstep (by simp)

/-- The dialog description as the claim words it: the both-enabled text when
both GitHub and Vercel are enabled, the Vercel text when only Vercel is
enabled, and the GitHub text in every other case. -/
def dialogDescriptionClaim (p : AuthProviders) : String :=
  if p.github && p.vercel then
    "Choose how you want to sign in to continue."
  else if p.vercel && !p.github then
    "Sign in with Vercel to continue."
  else
    "Sign in with GitHub to continue."

/-- C9: whenever either `loadingVercel` or `loadingGitHub` is true, both
sign-in buttons are disabled; in every reachable component state at most one
sign-in flow has been initiated, and no second flow can start once one is in
progress (neither click event can fire). -/
theorem signIn_single_flow (p : AuthProviders) (s : SignInState)
    (h : SignInReachable p s)
    (hl : (s.loadingVercel || s.loadingGitHub) = true) :
    vercelButtonDisabled s = true ∧ githubButtonDisabled s = true ∧
    ¬(s.loadingVercel = true ∧ s.loadingGitHub = true) ∧
    signInStep p s SignInEvent.clickVercel = none ∧
    signInStep p s SignInEvent.clickGitHub = none := by
  have hl' : s.loadingVercel = true ∨ s.loadingGitHub = true := by simpa using hl
  refine ⟨hl, hl, signInReachable_not_both h, ?_, ?_⟩ <;>
    rcases hl' with h1 | h1 <;>
    simp [signInStep, vercelButtonDisabled, githubButtonDisabled, h1]

/-- Witness for C9: with both providers enabled, open the dialog and click
the Vercel button; in the resulting reachable state both buttons are
disabled and neither click event can fire. -/
theorem signIn_single_flow_witness :
    vercelButtonDisabled
        { showDialog := true, loadingVercel := true, loadingGitHub := false } = true ∧
    githubButtonDisabled
        { showDialog := true, loadingVercel := true, loadingGitHub := false } = true ∧
    ¬(SignInState.loadingVercel
          { showDialog := true, loadingVercel := true, loadingGitHub := false } = true ∧
      SignInState.loadingGitHub
          { showDialog := true, loadingVercel := true, loadingGitHub := false } = true) ∧
    signInStep { github := true, vercel := true }
        { showDialog := true, loadingVercel := true, loadingGitHub := false }
        SignInEvent.clickVercel = none ∧
    signInStep { github := true, vercel := true }
        { showDialog := true, loadingVercel := true, loadingGitHub := false }
        SignInEvent.clickGitHub = none := by
  have h1 : SignInReachable { github := true, vercel := true }
      { showDialog := true, loadingVercel := false, loadingGitHub := false } :=
    SignInReachable.step _ _ SignInEvent.openDialog SignInReachable.init (by decide)
  have h2 : SignInReachable { github := true, vercel := true }
      { showDialog := true, loadingVercel := true, loadingGitHub := false } :=
    SignInReachable.step _ _ SignInEvent.clickVercel h1 (by decide)
  exact signIn_single_flow _ _ h2 (by decide)

/-- C10: the dialog description is a total function of the enabled-provider
flags, exactly as the claim cases it out; in the no-provider edge case the
GitHub description is shown while no sign-in button is rendered. -/
theorem signIn_dialog_description (p : AuthProviders) :
    dialogDescription p = dialogDescriptionClaim p ∧
    dialogDescription { github := false, vercel := false } =
      "Sign in with GitHub to continue." ∧
    renderedSignInButtons { github := false, vercel := false } = [] := by
  refine ⟨?_, rfl, rfl⟩
  rcases p with ⟨g, v⟩
  cases g <;> cases v <;> rfl

/-! ## Part II: the sandbox task orchestrator (modelled from the spec) -/

/-- Task status enum: queued, provisioning, running, committing, completed,
failed, cancelled. -/
inductive TaskStatus where
  | queued
  | provisioning
  | running
  | committing
  | completed
  | failed
  | cancelled
deriving DecidableEq, Repr

/-- Terminal states: completed, failed, cancelled. -/
def TaskStatus.isTerminal : TaskStatus → Bool
  | TaskStatus.completed => true
  | TaskStatus.failed => true
  | TaskStatus.cancelled => true
  | _ => false

/-- Modelled from the spec: the transition edges of the task state machine of
section 4.4 — queued → provisioning; provisioning → running or failed;
running → committing or failed; committing → completed or failed; and any
non-terminal state → cancelled. -/
def allowedTransition : TaskStatus → TaskStatus → Bool
  | TaskStatus.queued, TaskStatus.provisioning => true
  | TaskStatus.provisioning, TaskStatus.running => true
  | TaskStatus.provisioning, TaskStatus.failed => true
  | TaskStatus.running, TaskStatus.committing => true
  | TaskStatus.running, TaskStatus.failed => true
  | TaskStatus.committing, TaskStatus.completed => true
  | TaskStatus.committing, TaskStatus.failed => true
  | s, TaskStatus.cancelled => !s.isTerminal
  | _, _ => false

/-- Modelled from the spec: an attempted status transition is applied only if
it follows an allowed edge; an illegal attempt is rejected, leaving the
status unchanged. -/
def applyTransition (s t : TaskStatus) : TaskStatus :=
  if allowedTransition s t then t else s

/-- C1: a transition is applied only along an edge of the section 4.4 state
machine; an illegal attempt leaves the status unchanged; and a terminal
status is immutable — no attempted transition changes it. -/
theorem taskStatus_transitions_sound (s t : TaskStatus) :
    (allowedTransition s t = true → applyTransition s t = t) ∧
    (allowedTransition s t = false → applyTransition s t = s) ∧
    (s.isTerminal = true → applyTransition s t = s) := by
  refine ⟨fun h => by simp [applyTransition, h],
          fun h => by simp [applyTransition, h], fun h => ?_⟩
  have : allowedTransition s t = false := by
    cases s <;> cases t <;> first | rfl | exact absurd h (by decide)
  simp [applyTransition, this]

/-- Witness for C1: dequeue is applied; queued → running is rejected
unchanged; completed is immutable under an attempted move to running. -/
theorem taskStatus_transitions_sound_witness :
    applyTransition TaskStatus.queued TaskStatus.provisioning =
      TaskStatus.provisioning ∧
    applyTransition TaskStatus.queued TaskStatus.running = TaskStatus.queued ∧
    applyTransition TaskStatus.completed TaskStatus.running =
      TaskStatus.completed :=
  ⟨(taskStatus_transitions_sound TaskStatus.queued TaskStatus.provisioning).1
      (by decide),
   (taskStatus_transitions_sound TaskStatus.queued TaskStatus.running).2.1
      (by decide),
   (taskStatus_transitions_sound TaskStatus.completed TaskStatus.running).2.2
      (by decide)⟩

/-- A teardown decision the Lifecycle/Cleanup Manager can issue. -/
inductive CleanupAction where
  | teardownNow
  | scheduleExpiry (maxDuration : Nat)
deriving DecidableEq, Repr

/-- Modelled from the spec: `schedule(sandbox, keepAlive, maxDuration)` —
with keep-alive off, teardown is issued immediately; with keep-alive on,
teardown is deferred until `maxDuration` elapses. -/
def scheduleCleanup (keepAlive : Bool) (maxDuration : Nat) : List CleanupAction :=
  if keepAlive then [CleanupAction.scheduleExpiry maxDuration]
  else [CleanupAction.teardownNow]

/-- A task record: status plus the keep-alive flag the cleanup decision reads. -/
structure Task where
  status : TaskStatus
  keepAlive : Bool
deriving DecidableEq, Repr

/-- Modelled from the spec: the completion path — it applies the attempted
final transition and, when the task thereby sits in a terminal state,
invokes the Lifecycle Manager synchronously in the same path, returning the
cleanup actions it issued. -/
def completeTask (task : Task) (final : TaskStatus) (maxDuration : Nat) :
    Task × List CleanupAction :=
  let s := applyTransition task.status final
  if s.isTerminal then
    ({ task with status := s }, scheduleCleanup task.keepAlive maxDuration)
  else
    ({ task with status := s }, [])

/-- C3: for a task with `keepAlive = false`, reaching a terminal state issues
the sandbox teardown synchronously in the very same completion path — the
actions emitted by that path are exactly `[teardownNow]`, not a deferral. -/
theorem keepAliveOff_teardown_synchronous (task : Task) (final : TaskStatus)
    (d : Nat) (hk : task.keepAlive = false)
    (ht : (applyTransition task.status final).isTerminal = true) :
    (completeTask task final d).2 = [CleanupAction.teardownNow] := by
  simp [completeTask, ht, scheduleCleanup, hk]

/-- Witness for C3: a committing task with keep-alive off completing emits
exactly the immediate teardown. -/
theorem keepAliveOff_teardown_synchronous_witness :
    Task.keepAlive { status := TaskStatus.committing, keepAlive := false } =
      false ∧
    (applyTransition
        (Task.status { status := TaskStatus.committing, keepAlive := false })
        TaskStatus.completed).isTerminal = true ∧
    (completeTask { status := TaskStatus.committing, keepAlive := false }
        TaskStatus.completed 300).2 = [CleanupAction.teardownNow] :=
  ⟨rfl, by decide,
   keepAliveOff_teardown_synchronous
      { status := TaskStatus.committing, keepAlive := false }
      TaskStatus.completed 300 rfl (by decide)⟩

/-- Durable record of a provisioned sandbox handle: the persisted expiry
timestamp and how many times teardown has been executed against it. -/
structure SandboxRecord where
  expiry : Nat
  tornDownCount : Nat
deriving DecidableEq, Repr

/-- Modelled from the spec: provisioning persists the handle with its
durable expiry timestamp; no teardown has happened yet. -/
def provisionSandbox (expiry : Nat) : SandboxRecord :=
  { expiry := expiry, tornDownCount := 0 }

/-- Modelled from the spec: the synchronous teardown path; `crashed = true`
models the issuing process crashing before teardown runs.  Teardown is
guarded on the durable record so a handle already torn down is not torn
down again. -/
def syncTeardown (crashed : Bool) (r : SandboxRecord) : SandboxRecord :=
  if crashed || decide (r.tornDownCount ≠ 0) then r
  else { r with tornDownCount := r.tornDownCount + 1 }

/-- Modelled from the spec: the independent reaper's check at time `t` — it
tears the sandbox down exactly when the durable expiry has passed and no
teardown has been executed yet. -/
def reaperCheck (t : Nat) (r : SandboxRecord) : SandboxRecord :=
  if r.expiry ≤ t ∧ r.tornDownCount = 0 then
    { r with tornDownCount := r.tornDownCount + 1 }
  else r

/-- The reaper running at every tick from time 0 through time `t`. -/
def reaperRun : Nat → SandboxRecord → SandboxRecord
  | 0, r => reaperCheck 0 r
  | t + 1, r => reaperCheck (t + 1) (reaperRun t r)

/-- A full run: provision with the given expiry, attempt the synchronous
teardown (which may crash), then let the reaper tick through time `t`. -/
def sandboxRun (crashed : Bool) (expiry t : Nat) : SandboxRecord :=
  reaperRun t (syncTeardown crashed (provisionSandbox expiry))

lemma reaperCheck_expiry (t : Nat) (r : SandboxRecord) :
    (reaperCheck t r).expiry = r.expiry := by
  unfold reaperCheck
  split <;> rfl

lemma reaperRun_expiry (t : Nat) (r : SandboxRecord) :
    (reaperRun t r).expiry = r.expiry := by
  induction t with
  | zero => exact reaperCheck_expiry 0 r
  | succ t ih => rw [reaperRun, reaperCheck_expiry, ih]

lemma reaperCheck_of_torn (t : Nat) (r : SandboxRecord)
    (h : r.tornDownCount ≠ 0) : reaperCheck t r = r := by
  unfold reaperCheck
  split
  · next hc => exact absurd hc.2 h
  · rfl

lemma reaperRun_of_torn (t : Nat) (r : SandboxRecord)
    (h : r.tornDownCount ≠ 0) : reaperRun t r = r := by
  induction t with
  | zero => exact reaperCheck_of_torn 0 r h
  | succ t ih => rw [reaperRun, ih, reaperCheck_of_torn _ _ h]

lemma reaperRun_before_expiry (t : Nat) (r : SandboxRecord)
    (h : t < r.expiry) : reaperRun t r = r := by
  induction t with
  | zero =>
      rw [reaperRun, reaperCheck]
      split
      · next hc => omega
      · rfl
  | succ t ih =>
      have h' : t < r.expiry := by omega
      rw [reaperRun, ih h', reaperCheck]
      split
      · next hc => omega
      · rfl

lemma reaperRun_fires (t : Nat) (r : SandboxRecord)
    (h0 : r.tornDownCount = 0) (he : r.expiry ≤ t) :
    (reaperRun t r).tornDownCount = 1 := by
  induction t with
  | zero =>
      rw [reaperRun, reaperCheck]
      split
      · simp [h0]
      · next hc => exact absurd ⟨he, h0⟩ hc
  | succ t ih =>
      by_cases ht : r.expiry ≤ t
      · have := ih ht
        rw [reaperRun, reaperCheck_of_torn _ _ (by omega)]
        exact this
      · have hlt : t < r.expiry := by omega
        rw [reaperRun, reaperRun_before_expiry t r hlt, reaperCheck]
        split
        · simp [h0]
        · next hc => exact absurd ⟨he, h0⟩ hc

/-- C2: every provisioned sandbox is torn down exactly once by the time its
durable expiry has passed, whether or not the process issuing the
synchronous teardown crashed — the independent reaper covers the crash
case, and the guard on the durable record prevents a second teardown. -/
theorem sandbox_teardown_exactly_once (crashed : Bool) (expiry t : Nat)
    (h : expiry ≤ t) :
    (sandboxRun crashed expiry t).tornDownCount = 1 := by
  unfold sandboxRun
  by_cases hc : (syncTeardown crashed (provisionSandbox expiry)).tornDownCount = 0
  · exact reaperRun_fires t _ hc (by
      unfold syncTeardown provisionSandbox
      split <;> exact h)
  · have h1 : (syncTeardown crashed (provisionSandbox expiry)).tornDownCount = 1 := by
      unfold syncTeardown provisionSandbox at hc ⊢
      split at hc
      · exact absurd rfl hc
      · next hcond => rw [if_neg hcond]
    rw [reaperRun_of_torn t _ (by omega), h1]

/-- Witness for C2: a sandbox with expiry 2 whose synchronous teardown
process crashed is still torn down exactly once by time 5. -/
theorem sandbox_teardown_exactly_once_witness :
    2 ≤ 5 ∧ (sandboxRun true 2 5).tornDownCount = 1 :=
  ⟨by decide, sandbox_teardown_exactly_once true 2 5 (by decide)⟩

/-- Git operations the Change & VCS Tracker can issue against the sandbox. -/
inductive GitCall where
  | stage
  | commit
  | push
  | fetch
deriving DecidableEq, Repr

/-- Result of a successful `commitAndPush`. -/
inductive CommitResult where
  | noChanges
  | pushed
deriving DecidableEq, Repr

/-- VCS error taxonomy: PushRejected, AuthFailed, NothingToCommit. -/
inductive VcsError where
  | pushRejected
  | authFailed
  | nothingToCommit
deriving DecidableEq, Repr

/-- Outcome the remote reports for one push attempt. -/
inductive PushOutcome where
  | accepted
  | rejected
  | authFailed
deriving DecidableEq, Repr

/-- What one `commitAndPush` invocation did: its result, the git calls it
issued in order, and how many automatic retries it performed. -/
structure VcsRun where
  result : Except VcsError CommitResult
  calls : List GitCall
  retries : Nat
deriving Repr

/-- Modelled from the spec: `commitAndPush` — a no-op returning `NoChanges`
when `changesDetected` was false; otherwise it stages, commits, and pushes;
`PushRejected` is the one condition eligible for a single automatic retry
(re-fetch and reattempt) before surfacing the error; any other push error
surfaces immediately.  `first` and `second` are the remote's outcomes for
the first and (if reached) second push attempt. -/
def commitAndPush (changesDetected : Bool) (first second : PushOutcome) :
    VcsRun :=
  if changesDetected = false then
    { result := Except.ok CommitResult.noChanges, calls := [], retries := 0 }
  else
    match first with
    | PushOutcome.accepted =>
        { result := Except.ok CommitResult.pushed,
          calls := [GitCall.stage, GitCall.commit, GitCall.push], retries := 0 }
    | PushOutcome.authFailed =>
        { result := Except.error VcsError.authFailed,
          calls := [GitCall.stage, GitCall.commit, GitCall.push], retries := 0 }
    | PushOutcome.rejected =>
        match second with
        | PushOutcome.accepted =>
            { result := Except.ok CommitResult.pushed,
              calls := [GitCall.stage, GitCall.commit, GitCall.push,
                GitCall.fetch, GitCall.push], retries := 1 }
        | PushOutcome.authFailed =>
            { result := Except.error VcsError.authFailed,
              calls := [GitCall.stage, GitCall.commit, GitCall.push,
                GitCall.fetch, GitCall.push], retries := 1 }
        | PushOutcome.rejected =>
            { result := Except.error VcsError.pushRejected,
              calls := [GitCall.stage, GitCall.commit, GitCall.push,
                GitCall.fetch, GitCall.push], retries := 1 }

/-- Modelled from the spec: the committing-phase transition — committing →
completed on successful commit/push or `NoChanges`; committing → failed on
an unrecoverable `VcsError`. -/
def commitStep (res : Except VcsError CommitResult) : TaskStatus :=
  match res with
  | Except.ok _ => applyTransition TaskStatus.committing TaskStatus.completed
  | Except.error _ => applyTransition TaskStatus.committing TaskStatus.failed

/-- C4: with `changesDetected = false`, `commitAndPush` is a no-op returning
`NoChanges` — no stage, commit, or push call is issued — and the task still
reaches completed from committing. -/
theorem commitAndPush_noChanges (first second : PushOutcome) :
    (commitAndPush false first second).result =
      Except.ok CommitResult.noChanges ∧
    (commitAndPush false first second).calls = [] ∧
    commitStep (commitAndPush false first second).result =
      TaskStatus.completed := by
  refine ⟨rfl, rfl, rfl⟩

/-- C7: a retry happens exactly when changes existed and the first push was
rejected, and then exactly once; a push that conflicts once and succeeds on
the retry yields a completed task with one retry and a single commit call
(zero duplicates); a repeated rejection surfaces `PushRejected` and the
task fails rather than looping. -/
theorem pushRejected_single_retry (c : Bool) (first second : PushOutcome) :
    (commitAndPush c first second).retries =
      (if c = true ∧ first = PushOutcome.rejected then 1 else 0) ∧
    (commitAndPush true PushOutcome.rejected PushOutcome.accepted).result =
      Except.ok CommitResult.pushed ∧
    (commitAndPush true PushOutcome.rejected PushOutcome.accepted).retries = 1 ∧
    ((commitAndPush true PushOutcome.rejected
        PushOutcome.accepted).calls.count GitCall.commit) = 1 ∧
    commitStep (commitAndPush true PushOutcome.rejected
        PushOutcome.accepted).result = TaskStatus.completed ∧
    (commitAndPush true PushOutcome.rejected PushOutcome.rejected).result =
      Except.error VcsError.pushRejected ∧
    commitStep (commitAndPush true PushOutcome.rejected
        PushOutcome.rejected).result = TaskStatus.failed := by
  cases c <;> cases first <;> cases second <;>
    exact ⟨rfl, rfl, rfl, rfl, rfl, rfl, rfl⟩

/-- The supported agent variants: Claude Code, Codex, Copilot, Cursor,
Gemini, opencode. -/
inductive AgentVariant where
  | claude
  | codex
  | copilot
  | cursor
  | gemini
  | opencode
deriving DecidableEq, Repr

/-- Modelled from the spec: which variants support conversational
resumption — only Claude Code supports resuming conversations via session
identifiers. -/
def supportsResumption : AgentVariant → Bool
  | AgentVariant.claude => true
  | _ => false

/-- Agent Execution Result: success flag, captured output, changesDetected
boolean, optional resumable session identifier. -/
structure AgentExecutionResult where
  success : Bool
  output : String
  changesDetected : Bool
  sessionId : Option String
deriving DecidableEq, Repr

/-- Modelled from the spec: an agent invocation producing the standardized
result; `rawSession` is whatever session identifier the underlying tool
emitted, and it is surfaced only for a variant that supports resumption —
every other variant returns a null session identifier. -/
def executeAgent (variant : AgentVariant) (success changes : Bool)
    (output : String) (rawSession : Option String) : AgentExecutionResult :=
  { success := success, output := output, changesDetected := changes,
    sessionId := if supportsResumption variant then rawSession else none }

/-- C6: for every agent invocation by a variant other than Claude, the
result's session identifier is null; a non-null session identifier implies
the variant supports resumption, and Claude is the only such variant. -/
theorem sessionId_only_for_claude (variant : AgentVariant)
    (success changes : Bool) (output : String) (rawSession : Option String)
    (hv : variant ≠ AgentVariant.claude) :
    supportsResumption variant = false ∧
    (executeAgent variant success changes output rawSession).sessionId =
      none := by
  have hs : supportsResumption variant = false := by
    cases variant <;> first | rfl | exact absurd rfl hv
  exact ⟨hs, by simp [executeAgent, hs]⟩

/-- Witness for C6: a Codex invocation whose underlying tool emitted a
session string still returns a null session identifier. -/
theorem sessionId_only_for_claude_witness :
    supportsResumption AgentVariant.codex = false ∧
    (executeAgent AgentVariant.codex true true "output"
        (some "session-123")).sessionId = none :=
  sessionId_only_for_claude AgentVariant.codex true true "output"
    (some "session-123") (by decide)

/-- Provisioning error taxonomy. -/
inductive ProvisionError where
  | cloneFailed
  | dependencyInstallFailed
  | credentialInvalid
  | environmentUnavailable
deriving DecidableEq, Repr

/-- Opaque reference to a remote isolated environment, with creation time
and expiry. -/
structure SandboxHandle where
  repo : String
  createdAt : Nat
  expiresAt : Nat
deriving DecidableEq, Repr

/-- Provisioning inputs: the caller's own source-control credential, any
shared/global credential that happens to exist in the environment, and the
target repository. -/
structure ProvisionConfig where
  userCredential : String
  sharedCredential : String
  repoRef : String
deriving DecidableEq, Repr

/-- A provisioning run: its outcome and the credential the clone call used
(none when no clone was attempted). -/
structure ProvisionTrace where
  result : Except ProvisionError SandboxHandle
  cloneCredential : Option String
deriving Repr

/-- Modelled from the spec: `provision` clones the target repository using
the caller's own source-control credentials, never a shared fallback
credential; `credValid` is the remote's view of which credentials
authenticate. -/
def provision (credValid : String → Bool) (now maxDuration : Nat)
    (cfg : ProvisionConfig) : ProvisionTrace :=
  if credValid cfg.userCredential then
    { result := Except.ok
        { repo := cfg.repoRef, createdAt := now,
          expiresAt := now + maxDuration },
      cloneCredential := some cfg.userCredential }
  else
    { result := Except.error ProvisionError.credentialInvalid,
      cloneCredential := none }

/-- C8: the clone uses the caller's own credential (the credential handed to
the clone, when a clone happens, is exactly the user's), and the outcome is
independent of any shared credential: two runs differing only in the shared
credential value are identical. -/
theorem provision_uses_only_user_credential (credValid : String → Bool)
    (now maxDuration : Nat) (user shared shared' repo : String) :
    ((provision credValid now maxDuration
        { userCredential := user, sharedCredential := shared,
          repoRef := repo }).cloneCredential = none ∨
     (provision credValid now maxDuration
        { userCredential := user, sharedCredential := shared,
          repoRef := repo }).cloneCredential = some user) ∧
    provision credValid now maxDuration
        { userCredential := user, sharedCredential := shared,
          repoRef := repo } =
      provision credValid now maxDuration
        { userCredential := user, sharedCredential := shared',
          repoRef := repo } := by
  unfold provision
  by_cases h : credValid user
  · simp [h]
  · simp [h]

/-- Modelled from the spec: the append-only message store — `append(taskId,
line)` adds the line at the end, never rewriting earlier entries. -/
def appendMessage (store : List String) (m : String) : List String :=
  store ++ [m]

/-- Modelled from the spec: a reader retrieves the stored messages in
insertion order. -/
def readMessages (store : List String) : List String :=
  store

/-- An event in an interleaved history of appends (by the executing task)
and reads (by a concurrent reader). -/
inductive LogEvent where
  | append (m : String)
  | read
deriving DecidableEq, Repr

/-- The messages appended along a history, in order. -/
def appendsOf : List LogEvent → List String
  | [] => []
  | LogEvent.append m :: es => m :: appendsOf es
  | LogEvent.read :: es => appendsOf es

/-- Run an interleaved history against the store: the final store contents
and, for each read event, the sequence that reader retrieved. -/
def runLog : List LogEvent → List String → List String × List (List String)
  | [], store => (store, [])
  | LogEvent.append m :: es, store => runLog es (appendMessage store m)
  | LogEvent.read :: es, store =>
      ((runLog es store).1, readMessages store :: (runLog es store).2)

lemma runLog_spec (es : List LogEvent) (store : List String) :
    (runLog es store).1 = store ++ appendsOf es ∧
    ∀ r ∈ (runLog es store).2, store <+: r ∧ r <+: (runLog es store).1 := by
  induction es generalizing store with
  | nil => simp [runLog, appendsOf]
  | cons e es ih =>
      cases e with
      | append m =>
          obtain ⟨h1, h2⟩ := ih (appendMessage store m)
          refine ⟨?_, fun r hr => ?_⟩
          · simp only [runLog, appendMessage, appendsOf] at h1 ⊢
            simp [h1]
          · obtain ⟨ha, hb⟩ := h2 r hr
            constructor
            · exact List.IsPrefix.trans (List.prefix_append store [m])
                (by simpa [appendMessage] using ha)
            · simpa [runLog, appendMessage] using hb
      | read =>
          obtain ⟨h1, h2⟩ := ih store
          refine ⟨by simpa [runLog, appendsOf] using h1, fun r hr => ?_⟩
          simp only [runLog, readMessages, List.mem_cons] at hr
          rcases hr with rfl | hr
          · refine ⟨List.prefix_rfl, ?_⟩
            simp only [runLog]
            rw [h1]
            exact List.prefix_append _ _
          · obtain ⟨ha, hb⟩ := h2 r hr
            exact ⟨ha, by simpa [runLog] using hb⟩

/-- C5: the store is append-only; the full retrieved sequence equals exactly
the append order of the history; and a reader interleaved anywhere in the
history retrieves a prefix of that sequence — the messages appended so far,
in order, with no reordering and no loss. -/
theorem messageLog_ordered (es : List LogEvent) (r : List String)
    (store : List String) (m : String)
    (hr : r ∈ (runLog es []).2) :
    readMessages (runLog es []).1 = appendsOf es ∧
    r <+: appendsOf es ∧
    store <+: appendMessage store m := by
  obtain ⟨h1, h2⟩ := runLog_spec es []
  refine ⟨by simpa [readMessages] using h1, ?_, List.prefix_append store [m]⟩
  obtain ⟨-, hb⟩ := h2 r hr
  rw [h1] at hb
  simpa using hb

/-- Witness for C5: in the history append "a", read, append "b", the
interleaved reader retrieves exactly ["a"], a prefix of the final append
order ["a", "b"]. -/
theorem messageLog_ordered_witness :
    readMessages (runLog
        [LogEvent.append "a", LogEvent.read, LogEvent.append "b"] []).1 =
      appendsOf [LogEvent.append "a", LogEvent.read, LogEvent.append "b"] ∧
    ["a"] <+: appendsOf
        [LogEvent.append "a", LogEvent.read, LogEvent.append "b"] ∧
    ["x"] <+: appendMessage ["x"] "y" :=
  messageLog_ordered [LogEvent.append "a", LogEvent.read, LogEvent.append "b"]
    ["a"] ["x"] "y" (by simp [runLog, appendMessage, readMessages])

end VercelAgent
